import Mathlib

/-!
Shallow embedding of the telemetry receiver in src/telem.py (message
classification and normalization pipeline).  Pure parsing and
classification functions of the source are translated into executable
Lean functions; the process-global dedup set is modelled as explicit
state passed through the functions; Python exceptions are modelled with
Except.  Wall-clock timestamps, SQLite and CSV side effects are outside
the claims and are not modelled; the normalized row handed to them is.
-/

/-- One whitespace predicate used by the model of the Python str.strip
(restricted to the ASCII whitespace actually occurring in telemetry). -/
def isWS (c : Char) : Bool := c = ' ' || c = '\t' || c = '\n' || c = '\r'

/-- Model of Python str.strip on a character list. -/
def pyStripL (cs : List Char) : List Char :=
  ((cs.dropWhile isWS).reverse.dropWhile isWS).reverse

/-- Model of Python str.strip at the String level. -/
def pyStripS (s : String) : String := (pyStripL s.toList).asString

/-- Model of Python str.upper, restricted to ASCII (all prefixes compared
by the source are ASCII). -/
def pyUpper (s : String) : String := (s.toList.map Char.toUpper).asString

/-- Split a character list on every occurrence of a separator character;
model of Python str.split with a one-character separator (never returns
an empty list, returns one empty piece for empty input). -/
def splitOnChar (sep : Char) : List Char → List (List Char)
  | [] => [[]]
  | c :: rest =>
    match splitOnChar sep rest with
    | [] => [[]]
    | s :: ss => if c = sep then [] :: s :: ss else (c :: s) :: ss

/-- Split a character list at the first occurrence of a separator: model
of Python str.split(sep, 1) when the separator occurs; none when it does
not occur. -/
def splitFirstEq : List Char → Option (List Char × List Char)
  | [] => none
  | c :: rest =>
    if c = '=' then some ([], rest)
    else (splitFirstEq rest).map (fun p => (c :: p.1, p.2))

/-- Everything before the first pipe of the raw text: model of
raw.split(chr 124, 1)[0] in store_trade. -/
def firstSeg (raw : String) : String :=
  (raw.toList.takeWhile (fun c => c ≠ '|')).asString

/-- Naive substring test (used only to state what an error message does
not carry). -/
def hasSub (sub : List Char) : List Char → Bool
  | [] => sub.isEmpty
  | c :: rest => sub.isPrefixOf (c :: rest) || hasSub sub rest

/-- The field map: a Python dict from string keys to string values,
modelled as an insertion-ordered association list with unique keys. -/
abbrev Dict := List (String × String)

/-- Lookup in the field map (first occurrence; keys are unique because
the map is only built by pyDictInsert). Model of dict.get. -/
def pyGet : Dict → String → Option String
  | [], _ => none
  | p :: rest, k => if p.1 = k then some p.2 else pyGet rest k

/-- Python dict assignment: replace the value in place when the key is
present, append at the end when it is absent. -/
def pyDictInsert : Dict → String → String → Dict
  | [], k, v => [(k, v)]
  | p :: rest, k, v => if p.1 = k then (k, v) :: rest else p :: pyDictInsert rest k v

/-- Python key-membership test (k in kv). -/
def hasKey (kv : Dict) (k : String) : Bool := (pyGet kv k).isSome

/-- Python dict.setdefault: insert only when the key is absent. -/
def setdefault (kv : Dict) (k v : String) : Dict :=
  if hasKey kv k then kv else pyDictInsert kv k v

/-- One key=value segment of the message: split on the first equals
sign, strip key and value; none for a segment without an equals sign
(such segments are dropped by the tokenizer). -/
def segPair (cs : List Char) : Option (String × String) :=
  match splitFirstEq cs with
  | some (k, v) => some ((pyStripL k).asString, (pyStripL v).asString)
  | none => none

/-- Tokenizer: model of kv_parse in the source.  Strips the message,
splits on the pipe, uppercases and strips the first segment as the
message prefix token, and folds the remaining key=value segments into a
dict (Python dict assignment, so the last occurrence of a key wins). -/
def kv_parse (msg : String) : String × Dict :=
  match splitOnChar '|' (pyStripL msg.toList) with
  | [] => ("", [])
  | p0 :: rest =>
    (((pyStripL p0).map Char.toUpper).asString,
     (rest.filterMap segPair).foldl (fun d p => pyDictInsert d p.1 p.2) [])

/-- Model of norm_tf in the source: none or the empty string become the
sentinel "na", anything else is stripped. -/
def norm_tf (s : Option String) : String :=
  match s with
  | none => "na"
  | some t => if t = "" then "na" else pyStripS t

/-- Python a or b on two optional strings (None and the empty string are
falsy). -/
def pyOr : Option String → Option String → Option String
  | some s, b => if s = "" then b else some s
  | none, b => b

/-- Python a or b where the final fallback is a plain string. -/
def pyOrS : Option String → String → String
  | some s, b => if s = "" then b else s
  | none, b => b

/-- Value of a Python float: an exact decimal (IEEE rounding is not
modelled; no claim depends on the rounded value), an infinity or a nan. -/
inductive PyFloat where
  | finite (q : ℚ)
  | inf (neg : Bool)
  | nan
deriving DecidableEq

/-- Digit run with underscores between digits, as accepted by the Python
numeric literal grammar.  Returns the value, the number of digits and
the unconsumed rest; none when the run is empty or an underscore is not
surrounded by digits. -/
def parseDigitsAux : Nat → Nat → Bool → List Char → Option (Nat × Nat × List Char)
  | acc, cnt, prevD, [] => if prevD then some (acc, cnt, []) else none
  | acc, cnt, prevD, c :: rest =>
    if c.isDigit then parseDigitsAux (10 * acc + (c.toNat - 48)) (cnt + 1) true rest
    else if c = '_' then (if prevD then parseDigitsAux acc cnt false rest else none)
    else if prevD then some (acc, cnt, c :: rest) else none

/-- Digit run starting the given characters (at least one digit). -/
def parseDigits (cs : List Char) : Option (Nat × Nat × List Char) :=
  parseDigitsAux 0 0 false cs

/-- Optional exponent part closing a Python float literal; the whole
rest must be consumed. -/
def parseExp (m : ℚ) : List Char → Option ℚ
  | [] => some m
  | c :: rest =>
    if c = 'e' ∨ c = 'E' then
      let sr : Bool × List Char :=
        match rest with
        | '+' :: r => (false, r)
        | '-' :: r => (true, r)
        | r => (false, r)
      match parseDigits sr.2 with
      | some (ev, _, []) => some (m * (10 : ℚ) ^ (if sr.1 then -(ev : ℤ) else (ev : ℤ)))
      | _ => none
    else none

/-- Fractional part and exponent after the integer part of a Python
float literal (hasInt records whether an integer part was consumed). -/
def parseFrac (ip : Nat) (hasInt : Bool) : List Char → Option ℚ
  | '.' :: rest =>
    (match parseDigits rest with
     | some (fp, fc, rest2) =>
       parseExp (((ip * 10 ^ fc + fp : ℕ) : ℚ) / (10 : ℚ) ^ fc) rest2
     | none => if hasInt then parseExp (ip : ℚ) rest else none)
  | rest => if hasInt then parseExp (ip : ℚ) rest else none

/-- Unsigned Python float number (digits, optional fraction, optional
exponent; at least one digit in the mantissa; input fully consumed). -/
def parseNumber (cs : List Char) : Option ℚ :=
  match parseDigits cs with
  | some (ip, _, rest) => parseFrac ip true rest
  | none => parseFrac 0 false cs

/-- Model of the Python float builtin on a string: strip, optional sign,
then a case-insensitive infinity or nan or a decimal number; none models
a raised ValueError. -/
def pyfloat (s : String) : Option PyFloat :=
  let cs := pyStripL s.toList
  match cs with
  | [] => none
  | _ =>
    let sr : Bool × List Char :=
      match cs with
      | '+' :: r => (false, r)
      | '-' :: r => (true, r)
      | r => (false, r)
    let low := sr.2.map Char.toLower
    if low = "inf".toList ∨ low = "infinity".toList then some (.inf sr.1)
    else if low = "nan".toList then some .nan
    else (parseNumber sr.2).map (fun q => .finite (if sr.1 then -q else q))

/-- Model of the Python int builtin on a string (base 10): strip,
optional sign, digit run, input fully consumed; none models a raised
ValueError. -/
def pyint (s : String) : Option Int :=
  let cs := pyStripL s.toList
  let sr : Bool × List Char :=
    match cs with
    | '+' :: r => (false, r)
    | '-' :: r => (true, r)
    | r => (false, r)
  match parseDigits sr.2 with
  | some (v, _, []) => some (if sr.1 then -(v : ℤ) else (v : ℤ))
  | _ => none

/-- Wrap a string in single quotes, as the Python error messages do. -/
def squote (s : String) : String := "'" ++ s ++ "'"

/-- Raising float conversion: model of float(s) where failure is a
ValueError carried in Except. -/
def parseF (s : String) : Except String (Option PyFloat) :=
  match pyfloat s with
  | some x => .ok (some x)
  | none => .error ("could not convert string to float: " ++ squote s)

/-- Model of the source pattern
float(kv[k]) if kv.get(k) not in (None, "") else None:
absent or empty yields null, anything else is converted by float, whose
ValueError propagates. -/
def getF (kv : Dict) (k : String) : Except String (Option PyFloat) :=
  match pyGet kv k with
  | none => .ok none
  | some s => if s = "" then .ok none else parseF s

/-- Model of the source pattern
int(kv[k]) if kv.get(k) not in (None, "") else None. -/
def getI (kv : Dict) (k : String) : Except String (Option Int) :=
  match pyGet kv k with
  | none => .ok none
  | some s =>
    if s = "" then .ok none
    else
      match pyint s with
      | some n => .ok (some n)
      | none => .error ("invalid literal for int() with base 10: " ++ squote s)

/-- Model of the bbw field of store_market: bbw when present and
non-empty, else the bb alias. -/
def getBbw (kv : Dict) : Except String (Option PyFloat) :=
  match pyGet kv "bbw" with
  | none => getF kv "bb"
  | some s => if s = "" then getF kv "bb" else parseF s

/-- The normalized trade row built by store_trade (the ts_utc wall-clock
column and the SQLite/CSV writes are outside the model). -/
structure TradeRow where
  sym : String
  tf : String
  verb : String
  persona : Option String
  ag : Option Int
  al : Option PyFloat
  hr : Option PyFloat
  ds : Option PyFloat
  sl : Option PyFloat
  mx : Option String
  rs : Option String
  wr20 : Option PyFloat
  src : String
  raw : String
deriving DecidableEq

/-- The normalized market row built by store_market. -/
structure MarketRow where
  sym : String
  tf : String
  p : Option PyFloat
  v : Option PyFloat
  atr : Option PyFloat
  bbw : Option PyFloat
  al : Option PyFloat
  hr : Option PyFloat
  rg : Option String
  mx : Option String
  adx : Option PyFloat
  bb : Option PyFloat
  liq : Option PyFloat
  spr : Option PyFloat
  sess : Option String
  fp : Option String
  src : String
  raw : String
deriving DecidableEq

/-- Model of store_trade: builds the normalized trade row.  The numeric
conversions are evaluated in the order of the source dict literal (ag,
al, hr, ds, sl, wr20); the first ValueError aborts the row, exactly as
the Python dict literal evaluation does. -/
def store_trade (raw : String) (kv : Dict) (src : String) : Except String TradeRow :=
  let verb := pyOrS (pyGet kv "sig") (pyOrS (pyGet kv "verb") (firstSeg raw))
  match getI kv "ag" with
  | .error e => .error e
  | .ok ag =>
  match getF kv "al" with
  | .error e => .error e
  | .ok al =>
  match getF kv "hr" with
  | .error e => .error e
  | .ok hr =>
  match getF kv "ds" with
  | .error e => .error e
  | .ok ds =>
  match getF kv "sl" with
  | .error e => .error e
  | .ok sl =>
  match getF kv "wr20" with
  | .error e => .error e
  | .ok wr20 =>
    .ok { sym := (pyGet kv "sym").getD "na"
          tf := norm_tf (pyGet kv "tf")
          verb := verb
          persona := pyOr (pyGet kv "sq") (pyGet kv "p")
          ag := ag, al := al, hr := hr, ds := ds, sl := sl
          mx := pyGet kv "mx"
          rs := pyOr (pyGet kv "rs") (pyGet kv "reg")
          wr20 := wr20, src := src, raw := raw }

/-- Model of store_market: builds the normalized market row; numeric
conversions in source dict-literal order (p, v, atr, bbw with bb alias,
al, hr, adx, bb, liq, spr), first ValueError aborts. -/
def store_market (raw : String) (kv : Dict) (src : String) : Except String MarketRow :=
  match getF kv "p" with
  | .error e => .error e
  | .ok p =>
  match getF kv "v" with
  | .error e => .error e
  | .ok v =>
  match getF kv "atr" with
  | .error e => .error e
  | .ok atr =>
  match getBbw kv with
  | .error e => .error e
  | .ok bbw =>
  match getF kv "al" with
  | .error e => .error e
  | .ok al =>
  match getF kv "hr" with
  | .error e => .error e
  | .ok hr =>
  match getF kv "adx" with
  | .error e => .error e
  | .ok adx =>
  match getF kv "bb" with
  | .error e => .error e
  | .ok bb =>
  match getF kv "liq" with
  | .error e => .error e
  | .ok liq =>
  match getF kv "spr" with
  | .error e => .error e
  | .ok spr =>
    .ok { sym := (pyGet kv "sym").getD "na"
          tf := norm_tf (pyGet kv "tf")
          p := p, v := v, atr := atr, bbw := bbw, al := al, hr := hr
          rg := pyOr (pyGet kv "rg") (pyOr (pyGet kv "regime") (pyGet kv "reg"))
          mx := pyGet kv "mx"
          adx := adx, bb := bb, liq := liq, spr := spr
          sess := pyGet kv "sess", fp := pyGet kv "fp"
          src := src, raw := raw }

/-- The two message kinds. -/
inductive Kind where
  | trade
  | market
deriving DecidableEq

/-- The known trade action-code prefixes of classify_and_store. -/
def TRADE_ACTIONS : List String := ["EL", "ES", "XL", "XS", "XA"]

/-- The known trade envelope prefixes of classify_and_store. -/
def TRADE_ENVS : List String := ["TELEM", "TRD", "TRADE"]

/-- The known market envelope prefixes of classify_and_store. -/
def MARKET_ENVS : List String := ["PSY", "MKT", "MKT2"]

/-- The signal keys of the fallback inference in classify_and_store. -/
def SIG_KEYS : List String := ["sig", "verb"]

/-- The market-only indicator keys of the fallback inference. -/
def MKT_KEYS : List String := ["adx", "bbw", "liq", "fp", "spr", "sess"]

/-- The classification decision of classify_and_store (the branch
structure of the source, separated from the stores it interleaves):
known trade prefixes, known market prefixes, then key-based fallback,
else the ValueError message raised by the source. -/
def classify (pf : String) (kv : Dict) : Except String Kind :=
  if pf ∈ TRADE_ACTIONS then .ok .trade
  else if pf ∈ TRADE_ENVS then .ok .trade
  else if pf ∈ MARKET_ENVS then .ok .market
  else if SIG_KEYS.any (fun k => hasKey kv k) then .ok .trade
  else if MKT_KEYS.any (fun k => hasKey kv k) then .ok .market
  else .error "Unrecognized payload"

/-- A stored record: the row handed to the storage sink. -/
inductive Stored where
  | trade (r : TradeRow)
  | market (r : MarketRow)
deriving DecidableEq

/-- Kind string reported by classify_and_store for a stored record. -/
def kindStr : Stored → String
  | .trade _ => "trade"
  | .market _ => "market"

/-- The prefix as re-uppercased by classify_and_store (pf in the
source). -/
def pfOf (raw : String) : String := pyUpper (kv_parse raw).1

/-- Model of classify_and_store: tokenize, classify, then normalize and
store; for an action-code prefix the verb field is defaulted to the
uppercased prefix before normalization (kv.setdefault in the source).
The returned value carries the stored row; errors model the raised
exceptions. -/
def classify_and_store (raw : String) : Except String Stored :=
  match classify (pfOf raw) (kv_parse raw).2 with
  | .ok .trade =>
    (store_trade raw
      (if pfOf raw ∈ TRADE_ACTIONS
       then setdefault (kv_parse raw).2 "verb" (pfOf raw)
       else (kv_parse raw).2) "F34").map .trade
  | .ok .market => (store_market raw (kv_parse raw).2 "HEIMDALL").map .market
  | .error e => .error e

/-- UTF-8 encoding of one code point as byte values. -/
def utf8Char (n : Nat) : List Nat :=
  if n < 128 then [n]
  else if n < 2048 then [192 ||| (n >>> 6), 128 ||| (n &&& 63)]
  else if n < 65536 then
    [224 ||| (n >>> 12), 128 ||| ((n >>> 6) &&& 63), 128 ||| (n &&& 63)]
  else
    [240 ||| (n >>> 18), 128 ||| ((n >>> 12) &&& 63),
     128 ||| ((n >>> 6) &&& 63), 128 ||| (n &&& 63)]

/-- UTF-8 encoding of a string as byte values (msg.encode in seen). -/
def utf8Encode (s : String) : List Nat :=
  (s.toList.map (fun c => utf8Char c.toNat)).flatten

/-- Truncation to a 32-bit word, bytes and words being modelled as Nat. -/
def w32 (n : Nat) : Nat := n % 4294967296

/-- 32-bit left rotation. -/
def rotl (b n : Nat) : Nat := w32 ((n <<< b) ||| (n >>> (32 - b)))

/-- SHA-1 padding: append the 128 byte, zeros to 56 mod 64, then the
bit length as eight big-endian bytes. -/
def sha1pad (m : List Nat) : List Nat :=
  let l := m.length
  let z := (64 + 56 - (l + 1) % 64) % 64
  let bits := 8 * l
  m ++ [128] ++ List.replicate z 0 ++
    [(bits >>> 56) &&& 255, (bits >>> 48) &&& 255, (bits >>> 40) &&& 255,
     (bits >>> 32) &&& 255, (bits >>> 24) &&& 255, (bits >>> 16) &&& 255,
     (bits >>> 8) &&& 255, bits &&& 255]

/-- Big-endian 32-bit words from groups of four bytes. -/
def words32 : List Nat → List Nat
  | b0 :: b1 :: b2 :: b3 :: rest => (((b0 * 256 + b1) * 256 + b2) * 256 + b3) :: words32 rest
  | _ => []

/-- Cut a list into chunks of n+1 elements (fuel-structured so that it
reduces in the kernel; the fuel is the list length, enough because each
step consumes at least one element). -/
def chunkAux (n : Nat) : Nat → List α → List (List α)
  | 0, _ => []
  | _, [] => []
  | fuel + 1, x :: xs => (x :: xs.take n) :: chunkAux n fuel (xs.drop n)

/-- Cut a list into chunks of n+1 elements. -/
def chunkList (n : Nat) (l : List α) : List (List α) := chunkAux n l.length l

/-- One step of the SHA-1 message-schedule expansion. -/
def sha1extendStep (ws : List Nat) : List Nat :=
  let n := ws.length
  let g (k : Nat) : Nat := ws.getD (n - k) 0
  ws ++ [rotl 1 (Nat.xor (Nat.xor (g 3) (g 8)) (Nat.xor (g 14) (g 16)))]

/-- SHA-1 message schedule: 16 words expanded to 80. -/
def sha1extend (ws : List Nat) : List Nat :=
  (List.range 64).foldl (fun a _ => sha1extendStep a) ws

/-- The SHA-1 round function for round t. -/
def sha1f (t b c d : Nat) : Nat :=
  if t < 20 then (b &&& c) ||| ((Nat.xor b 4294967295) &&& d)
  else if t < 40 then Nat.xor (Nat.xor b c) d
  else if t < 60 then (b &&& c) ||| (b &&& d) ||| (c &&& d)
  else Nat.xor (Nat.xor b c) d

/-- The SHA-1 round constant for round t. -/
def sha1k (t : Nat) : Nat :=
  if t < 20 then 1518500249
  else if t < 40 then 1859775393
  else if t < 60 then 2400959708
  else 3395469782

/-- One SHA-1 compression round. -/
def sha1round (st : Nat × Nat × Nat × Nat × Nat) (tw : Nat × Nat) :
    Nat × Nat × Nat × Nat × Nat :=
  let a := st.1; let b := st.2.1; let c := st.2.2.1
  let d := st.2.2.2.1; let e := st.2.2.2.2
  let tmp := w32 (rotl 5 a + sha1f tw.1 b c d + e + sha1k tw.1 + tw.2)
  (tmp, a, rotl 30 b, c, d)

/-- SHA-1 compression of one 64-byte block into the running state. -/
def sha1block (h : List Nat) (block : List Nat) : List Nat :=
  let ws := sha1extend (words32 block)
  let h0 := h.getD 0 0; let h1 := h.getD 1 0; let h2 := h.getD 2 0
  let h3 := h.getD 3 0; let h4 := h.getD 4 0
  let f := ws.enum.foldl sha1round (h0, h1, h2, h3, h4)
  [w32 (h0 + f.1), w32 (h1 + f.2.1), w32 (h2 + f.2.2.1),
   w32 (h3 + f.2.2.2.1), w32 (h4 + f.2.2.2.2)]

/-- One lowercase hex digit. -/
def hexDigit (n : Nat) : Char :=
  if n < 10 then Char.ofNat (48 + n) else Char.ofNat (87 + n)

/-- Eight lowercase hex digits of a 32-bit word, most significant
first. -/
def hex8 (n : Nat) : List Char :=
  (List.range 8).map (fun i => hexDigit ((n >>> ((7 - i) * 4)) &&& 15))

/-- Model of hashlib.sha1(msg.encode()).hexdigest(). -/
def sha1hex (msg : String) : String :=
  let blocks := chunkList 63 (sha1pad (utf8Encode msg))
  let h := blocks.foldl sha1block
    [1732584193, 4023233417, 2562383102, 271733878, 3285377520]
  ((h.map hex8).flatten).asString

/-- Model of seen and its process-global set _recent: the set is passed
in and returned explicitly, as an insertion-ordered list of digests with
the newest first; the batch eviction pops 500 elements. -/
def seen (msg : String) (recent : List String) : Bool × List String :=
  let h := sha1hex msg
  if h ∈ recent then (true, recent)
  else
    let r := h :: recent
    if r.length > 2000 then (false, r.drop 500) else (false, r)

/-- The responses of the ingest endpoint that matter to the claims:
a 400 empty-payload rejection, a 200 duplicate acknowledgement, a 200
success with the kind, and a 422 parse error. -/
inductive IngestResp where
  | emptyErr
  | dup (len : Nat)
  | ok (kind : String) (len : Nat)
  | parseErr (msg : String)
deriving DecidableEq

/-- Whether a response is acknowledged to the sender as a success (an
HTTP 200 JSONResponse rather than a raised HTTPException). -/
def respSuccess : IngestResp → Bool
  | .dup _ => true
  | .ok _ _ => true
  | _ => false

/-- Model of the ingest endpoint, after authentication and body
decoding (both outside the claims): strip the body, reject the empty
payload, consult the dedup cache, then classify and store.  Returns the
response, the dedup state, and the record stored (none when nothing was
stored). -/
def ingest (body : String) (recent : List String) :
    IngestResp × List String × Option Stored :=
  let raw := pyStripS body
  if raw = "" then (.emptyErr, recent, none)
  else
    let s := seen raw recent
    if s.1 then (.dup raw.length, s.2, none)
    else
      match classify_and_store raw with
      | .ok st => (.ok (kindStr st) raw.length, s.2, some st)
      | .error e => (.parseErr ("Parse error: " ++ e), s.2, none)

/-- Spec-level lookup: the value of the last key=value segment of the
message whose key is k (what the tokenizer contract promises the field
map contains). -/
def lastWins (msg : String) (k : String) : Option String :=
  let parts := splitOnChar '|' (pyStripL msg.toList)
  ((((parts.drop 1).filterMap segPair).reverse.find? (fun p => p.1 = k)).map Prod.snd)

/-- Spec-level verb resolution (the amended claim C6): sig if present
and non-empty, else verb if present and non-empty, else the uppercased
prefix when it is an action code and no verb key was sent, else the
verbatim first pipe-segment of the raw text. -/
def verbSpec (raw : String) : String :=
  let kv := (kv_parse raw).2
  let fb :=
    if pfOf raw ∈ TRADE_ACTIONS ∧ hasKey kv "verb" = false then pfOf raw
    else firstSeg raw
  pyOrS (pyGet kv "sig") (pyOrS (pyGet kv "verb") fb)

/-- A numeric source field the normalizers treat as missing: the key is
absent from the field map or its value is the empty string (the
kv.get(k) not in (None, "") guard of the source). -/
def absentOrEmpty (kv : Dict) (k : String) : Prop :=
  pyGet kv k = none ∨ pyGet kv k = some ""

/-- A float field value that makes the float builtin raise: present,
non-empty, and not parsing as a Python float. -/
def unparsableF (kv : Dict) (k : String) : Prop :=
  ∃ s, pyGet kv k = some s ∧ s ≠ "" ∧ pyfloat s = none

/-- An int field value that makes the int builtin raise: present,
non-empty, and not parsing as a Python base-10 integer. -/
def unparsableI (kv : Dict) (k : String) : Prop :=
  ∃ s, pyGet kv k = some s ∧ s ≠ "" ∧ pyint s = none

/-- Lookup after a Python dict assignment: the assigned key now maps to
the new value, every other key is unaffected. -/
theorem pyGet_pyDictInsert (d : Dict) (k0 v0 k : String) :
    pyGet (pyDictInsert d k0 v0) k = if k = k0 then some v0 else pyGet d k := by
  induction d with
  | nil =>
    by_cases h : k = k0
    · subst h; simp [pyDictInsert, pyGet]
    · simp [pyDictInsert, pyGet, h, Ne.symm h]
  | cons p rest ih =>
    by_cases hp : p.1 = k0
    · subst hp
      by_cases hk : k = p.1
      · subst hk; simp [pyDictInsert, pyGet]
      · simp [pyDictInsert, pyGet, hk, Ne.symm hk]
    · by_cases hk : k = k0
      · subst hk
        simp [pyDictInsert, pyGet, hp, Ne.symm hp, ih]
      · by_cases hpk : p.1 = k
        · subst hpk; simp [pyDictInsert, pyGet, hp, hk]
        · simp [pyDictInsert, pyGet, hp, hk, hpk, ih]

/-- Folding Python dict assignments over a pair list realizes the
last-occurrence-wins lookup. -/
theorem pyGet_foldl_insert (ps : List (String × String)) (d : Dict) (k : String) :
    pyGet (ps.foldl (fun d p => pyDictInsert d p.1 p.2) d) k
      = match ps.reverse.find? (fun p => p.1 = k) with
        | some q => some q.2
        | none => pyGet d k := by
  induction ps generalizing d with
  | nil => simp
  | cons p rest ih =>
    simp only [List.foldl_cons, List.reverse_cons, List.find?_append, ih]
    cases hf : rest.reverse.find? (fun p => p.1 = k) with
    | some q => simp [Option.or]
    | none =>
      simp only [Option.or, List.find?]
      by_cases hk : p.1 = k
      · subst hk; simp [pyGet_pyDictInsert]
      · simp [hk, pyGet_pyDictInsert, Ne.symm hk]

/-- The pipe split never returns an empty list of segments. -/
theorem splitOnChar_ne_nil (sep : Char) (cs : List Char) : splitOnChar sep cs ≠ [] := by
  cases cs with
  | nil => simp [splitOnChar]
  | cons c rest =>
    simp only [splitOnChar]
    cases splitOnChar sep rest with
    | nil => simp
    | cons s ss => by_cases hc : c = sep <;> simp [hc]

/-- C8: tokenization is total (kv_parse is a Lean function defined on
every input string, with no error result): the text is split on the
pipe, the first segment becomes the trimmed uppercased message prefix,
each later segment is split on its first equals sign only (so values
may contain further equals characters, conjunct three), segments
without an equals sign are dropped (conjunct four), and when a key
repeats the last occurrence wins in the resulting field map (conjunct
one, lookup in the built dict equals the spec-level last-wins lookup
over the segments). -/
theorem C8_tokenizer_total_last_wins (msg : String) (k : String) :
    pyGet (kv_parse msg).2 k = lastWins msg k
    ∧ (kv_parse msg).1
        = ((pyStripL ((splitOnChar '|' (pyStripL msg.toList)).headD [])).map Char.toUpper).asString
    ∧ segPair ("a=b=c".toList) = some ("a", "b=c")
    ∧ segPair ("bare".toList) = none := by
  obtain ⟨p0, rest, hsplit⟩ :
      ∃ p0 rest, splitOnChar '|' (pyStripL msg.toList) = p0 :: rest := by
    cases h : splitOnChar '|' (pyStripL msg.toList) with
    | nil => exact absurd h (splitOnChar_ne_nil _ _)
    | cons a b => exact ⟨a, b, rfl⟩
  refine ⟨?_, ?_, by decide, by decide⟩
  · simp only [kv_parse, lastWins, hsplit, List.drop_succ_cons, List.drop_zero]
    rw [pyGet_foldl_insert]
    cases hf : (rest.filterMap segPair).reverse.find? (fun p => p.1 = k) with
    | some q => simp
    | none => simp [pyGet]
  · simp only [kv_parse, hsplit, List.headD_cons]

/-- C2: for every raw message whose first pipe-delimited segment, after
trimming and uppercasing (which is exactly the prefix computed by the
tokenizer), is one of the known trade prefixes EL, ES, XL, XS, XA,
TELEM, TRD, TRADE, the classification decision is trade, regardless of
which key=value fields the message contains. -/
theorem C2_trade_prefix_classifies_trade (raw : String)
    (h : (kv_parse raw).1 ∈ TRADE_ACTIONS ++ TRADE_ENVS) :
    classify (pfOf raw) (kv_parse raw).2 = .ok Kind.trade := by
  unfold pfOf
  have h' : (kv_parse raw).1 = "EL" ∨ (kv_parse raw).1 = "ES" ∨ (kv_parse raw).1 = "XL"
      ∨ (kv_parse raw).1 = "XS" ∨ (kv_parse raw).1 = "XA" ∨ (kv_parse raw).1 = "TELEM"
      ∨ (kv_parse raw).1 = "TRD" ∨ (kv_parse raw).1 = "TRADE" := by
    simpa [TRADE_ACTIONS, TRADE_ENVS] using h
  rcases h' with h | h | h | h | h | h | h | h <;> rw [h] <;> rfl

/-- C2 witness at a concrete trade message. -/
theorem C2_witness :
    (kv_parse "EL|sym=BTCUSDT").1 ∈ TRADE_ACTIONS ++ TRADE_ENVS
    ∧ classify (pfOf "EL|sym=BTCUSDT") (kv_parse "EL|sym=BTCUSDT").2 = .ok Kind.trade :=
  ⟨by decide, C2_trade_prefix_classifies_trade "EL|sym=BTCUSDT" (by decide)⟩

/-- C3: when the prefix is unknown, the key-based fallback applies: no
sig and no verb key but at least one market-only indicator key among
adx, bbw, liq, fp, spr, sess classifies as market (first conjunct); a
sig or verb key classifies as trade even when market keys are also
present, because the signal-key check runs first (second conjunct). -/
theorem C3_fallback_key_classification (raw : String)
    (h1 : pfOf raw ∉ TRADE_ACTIONS) (h2 : pfOf raw ∉ TRADE_ENVS)
    (h3 : pfOf raw ∉ MARKET_ENVS) :
    ((hasKey (kv_parse raw).2 "sig" = false → hasKey (kv_parse raw).2 "verb" = false →
        MKT_KEYS.any (fun k => hasKey (kv_parse raw).2 k) = true →
        classify (pfOf raw) (kv_parse raw).2 = .ok Kind.market)
     ∧ (hasKey (kv_parse raw).2 "sig" = true ∨ hasKey (kv_parse raw).2 "verb" = true →
        classify (pfOf raw) (kv_parse raw).2 = .ok Kind.trade)) := by
  constructor
  · intro hs hv hm
    simp [classify, h1, h2, h3, SIG_KEYS, hs, hv, hm]
  · intro hsv
    rcases hsv with hs | hs <;> simp [classify, h1, h2, h3, SIG_KEYS, hs]

/-- C3 witness: a market-key message and a sig-key message with the
same unknown prefix and a market key present in both. -/
theorem C3_witness :
    classify (pfOf "ZZZ|adx=1") (kv_parse "ZZZ|adx=1").2 = .ok Kind.market
    ∧ classify (pfOf "ZZZ|sig=a|adx=1") (kv_parse "ZZZ|sig=a|adx=1").2 = .ok Kind.trade :=
  ⟨(C3_fallback_key_classification "ZZZ|adx=1" (by decide) (by decide) (by decide)).1
      (by decide) (by decide) (by decide),
   (C3_fallback_key_classification "ZZZ|sig=a|adx=1" (by decide) (by decide) (by decide)).2
      (Or.inl (by decide))⟩

/-- C4 counterexample: on an unrecognized payload the source raises
ValueError of the fixed string Unrecognized payload; the error does not
carry the prefix FOO nor the observed key x, refuting the diagnostic
part of the claim. -/
theorem C4_counterexample :
    classify_and_store "FOO|x=1" = .error "Unrecognized payload"
    ∧ hasSub ("FOO".toList) ("Unrecognized payload".toList) = false
    ∧ hasSub ("x".toList) ("Unrecognized payload".toList) = false :=
  ⟨rfl, by decide, by decide⟩

/-- C4 amended: for every raw message whose prefix is not a known trade
or market prefix and whose field map contains neither a signal key nor
any market-only indicator key, classification fails; the error is the
fixed message Unrecognized payload and carries no further
diagnostics. -/
theorem C4_amended_unrecognized_payload (raw : String)
    (h1 : pfOf raw ∉ TRADE_ACTIONS) (h2 : pfOf raw ∉ TRADE_ENVS)
    (h3 : pfOf raw ∉ MARKET_ENVS)
    (h4 : SIG_KEYS.any (fun k => hasKey (kv_parse raw).2 k) = false)
    (h5 : MKT_KEYS.any (fun k => hasKey (kv_parse raw).2 k) = false) :
    classify_and_store raw = .error "Unrecognized payload" := by
  simp [classify_and_store, classify, h1, h2, h3, h4, h5]

/-- C4 witness at a concrete unrecognized message. -/
theorem C4_witness :
    classify_and_store "BAR|y=2" = .error "Unrecognized payload" :=
  C4_amended_unrecognized_payload "BAR|y=2" (by decide) (by decide) (by decide)
    (by decide) (by decide)

/-- Field contents of a successfully normalized trade row. -/
theorem store_trade_ok_fields (raw : String) (kv : Dict) (src : String) (r : TradeRow)
    (h : store_trade raw kv src = .ok r) :
    getI kv "ag" = .ok r.ag ∧ getF kv "al" = .ok r.al ∧ getF kv "hr" = .ok r.hr
    ∧ getF kv "ds" = .ok r.ds ∧ getF kv "sl" = .ok r.sl ∧ getF kv "wr20" = .ok r.wr20
    ∧ r.sym = (pyGet kv "sym").getD "na" ∧ r.tf = norm_tf (pyGet kv "tf")
    ∧ r.verb = pyOrS (pyGet kv "sig") (pyOrS (pyGet kv "verb") (firstSeg raw)) := by
  unfold store_trade at h
  cases h1 : getI kv "ag" with
  | error e => rw [h1] at h; exact absurd h (by simp)
  | ok ag =>
  cases h2 : getF kv "al" with
  | error e => rw [h1, h2] at h; exact absurd h (by simp)
  | ok al =>
  cases h3 : getF kv "hr" with
  | error e => rw [h1, h2, h3] at h; exact absurd h (by simp)
  | ok hr =>
  cases h4 : getF kv "ds" with
  | error e => rw [h1, h2, h3, h4] at h; exact absurd h (by simp)
  | ok ds =>
  cases h5 : getF kv "sl" with
  | error e => rw [h1, h2, h3, h4, h5] at h; exact absurd h (by simp)
  | ok sl =>
  cases h6 : getF kv "wr20" with
  | error e => rw [h1, h2, h3, h4, h5, h6] at h; exact absurd h (by simp)
  | ok wr20 =>
    rw [h1, h2, h3, h4, h5, h6] at h
    simp only [Except.ok.injEq] at h
    refine ⟨?_, ?_, ?_, ?_, ?_, ?_, ?_, ?_, ?_⟩ <;> rw [← h]

/-- Field contents of a successfully normalized market row. -/
theorem store_market_ok_fields (raw : String) (kv : Dict) (src : String) (m : MarketRow)
    (h : store_market raw kv src = .ok m) :
    getF kv "p" = .ok m.p ∧ getF kv "v" = .ok m.v ∧ getF kv "atr" = .ok m.atr
    ∧ getBbw kv = .ok m.bbw ∧ getF kv "al" = .ok m.al ∧ getF kv "hr" = .ok m.hr
    ∧ getF kv "adx" = .ok m.adx ∧ getF kv "bb" = .ok m.bb ∧ getF kv "liq" = .ok m.liq
    ∧ getF kv "spr" = .ok m.spr
    ∧ m.sym = (pyGet kv "sym").getD "na" ∧ m.tf = norm_tf (pyGet kv "tf") := by
  unfold store_market at h
  cases h1 : getF kv "p" with
  | error e => rw [h1] at h; exact absurd h (by simp)
  | ok p =>
  cases h2 : getF kv "v" with
  | error e => rw [h1, h2] at h; exact absurd h (by simp)
  | ok v =>
  cases h3 : getF kv "atr" with
  | error e => rw [h1, h2, h3] at h; exact absurd h (by simp)
  | ok atr =>
  cases h4 : getBbw kv with
  | error e => rw [h1, h2, h3, h4] at h; exact absurd h (by simp)
  | ok bbw =>
  cases h5 : getF kv "al" with
  | error e => rw [h1, h2, h3, h4, h5] at h; exact absurd h (by simp)
  | ok al =>
  cases h6 : getF kv "hr" with
  | error e => rw [h1, h2, h3, h4, h5, h6] at h; exact absurd h (by simp)
  | ok hr =>
  cases h7 : getF kv "adx" with
  | error e => rw [h1, h2, h3, h4, h5, h6, h7] at h; exact absurd h (by simp)
  | ok adx =>
  cases h8 : getF kv "bb" with
  | error e => rw [h1, h2, h3, h4, h5, h6, h7, h8] at h; exact absurd h (by simp)
  | ok bb =>
  cases h9 : getF kv "liq" with
  | error e => rw [h1, h2, h3, h4, h5, h6, h7, h8, h9] at h; exact absurd h (by simp)
  | ok liq =>
  cases h10 : getF kv "spr" with
  | error e => rw [h1, h2, h3, h4, h5, h6, h7, h8, h9, h10] at h; exact absurd h (by simp)
  | ok spr =>
    rw [h1, h2, h3, h4, h5, h6, h7, h8, h9, h10] at h
    simp only [Except.ok.injEq] at h
    refine ⟨?_, ?_, ?_, ?_, ?_, ?_, ?_, ?_, ?_, ?_, ?_, ?_⟩ <;> rw [← h]

/-- The getter of an absent-or-empty float field yields a null value. -/
theorem getF_absent (kv : Dict) (k : String) (h : absentOrEmpty kv k) :
    getF kv k = .ok none := by
  rcases h with h | h <;> simp [getF, h]

/-- The getter of a present, non-empty, unparsable float field raises
the float conversion error. -/
theorem getF_raises (kv : Dict) (k s : String) (hs : pyGet kv k = some s)
    (hne : s ≠ "") (hpf : pyfloat s = none) :
    getF kv k = .error ("could not convert string to float: " ++ squote s) := by
  simp [getF, hs, hne, parseF, hpf]

/-- The getter of an absent-or-empty int field yields a null value. -/
theorem getI_absent (kv : Dict) (k : String) (h : absentOrEmpty kv k) :
    getI kv k = .ok none := by
  rcases h with h | h <;> simp [getI, h]

/-- The getter of a present, non-empty, unparsable int field raises the
int conversion error. -/
theorem getI_raises (kv : Dict) (k s : String) (hs : pyGet kv k = some s)
    (hne : s ≠ "") (hpi : pyint s = none) :
    getI kv k = .error ("invalid literal for int() with base 10: " ++ squote s) := by
  simp [getI, hs, hne, hpi]

/-- The bbw getter yields null when both the bbw key and its bb alias
are absent or empty. -/
theorem getBbw_absent (kv : Dict) (h1 : absentOrEmpty kv "bbw")
    (h2 : absentOrEmpty kv "bb") : getBbw kv = .ok none := by
  rcases h1 with h1 | h1 <;> simp [getBbw, h1, getF_absent kv "bb" h2]

/-- The bbw getter raises when the bbw key is present, non-empty and
unparsable. -/
theorem getBbw_raises (kv : Dict) (s : String) (hs : pyGet kv "bbw" = some s)
    (hne : s ≠ "") (hpf : pyfloat s = none) :
    getBbw kv = .error ("could not convert string to float: " ++ squote s) := by
  simp [getBbw, hs, hne, parseF, hpf]

/-- C1 counterexample: a trade message carrying al=notanumber does not
yield a record with al absent; the float conversion raises and the
error propagates out of the normalizer (the ingest boundary then maps
it to a 422 parse-error response). -/
theorem C1_counterexample :
    classify_and_store "EL|al=notanumber"
      = .error "could not convert string to float: 'notanumber'" := rfl

/-- C1 amended, over every numeric field of both normalizers (ag as
integer and al, hr, ds, sl, wr20 as floats for trades; p, v, atr, bbw
with its bb alias, al, hr, adx, bb, liq, spr as floats for market
rows): a field that is absent or empty normalizes to an absent value in
the produced record (conjuncts one and three), but a present, non-empty
value that does not parse as a number makes the normalizer fail with an
error rather than produce a record (conjuncts two and four), including
the int path of ag and both branches of the bbw/bb alias. -/
theorem C1_amended_numeric_parse (raw : String) (kv : Dict) (src : String) :
    (∀ r, store_trade raw kv src = .ok r →
        (absentOrEmpty kv "ag" → r.ag = none)
        ∧ (absentOrEmpty kv "al" → r.al = none)
        ∧ (absentOrEmpty kv "hr" → r.hr = none)
        ∧ (absentOrEmpty kv "ds" → r.ds = none)
        ∧ (absentOrEmpty kv "sl" → r.sl = none)
        ∧ (absentOrEmpty kv "wr20" → r.wr20 = none))
    ∧ ((unparsableI kv "ag" ∨ unparsableF kv "al" ∨ unparsableF kv "hr"
        ∨ unparsableF kv "ds" ∨ unparsableF kv "sl" ∨ unparsableF kv "wr20") →
        ∃ e, store_trade raw kv src = .error e)
    ∧ (∀ m, store_market raw kv src = .ok m →
        (absentOrEmpty kv "p" → m.p = none)
        ∧ (absentOrEmpty kv "v" → m.v = none)
        ∧ (absentOrEmpty kv "atr" → m.atr = none)
        ∧ (absentOrEmpty kv "bbw" → absentOrEmpty kv "bb" → m.bbw = none)
        ∧ (absentOrEmpty kv "al" → m.al = none)
        ∧ (absentOrEmpty kv "hr" → m.hr = none)
        ∧ (absentOrEmpty kv "adx" → m.adx = none)
        ∧ (absentOrEmpty kv "bb" → m.bb = none)
        ∧ (absentOrEmpty kv "liq" → m.liq = none)
        ∧ (absentOrEmpty kv "spr" → m.spr = none))
    ∧ ((unparsableF kv "p" ∨ unparsableF kv "v" ∨ unparsableF kv "atr"
        ∨ unparsableF kv "bbw" ∨ (absentOrEmpty kv "bbw" ∧ unparsableF kv "bb")
        ∨ unparsableF kv "al" ∨ unparsableF kv "hr" ∨ unparsableF kv "adx"
        ∨ unparsableF kv "bb" ∨ unparsableF kv "liq" ∨ unparsableF kv "spr") →
        ∃ e, store_market raw kv src = .error e) := by
  refine ⟨?_, ?_, ?_, ?_⟩
  · intro r hok
    obtain ⟨hag, hal, hhr, hds, hsl, hwr, -, -, -⟩ :=
      store_trade_ok_fields raw kv src r hok
    refine ⟨fun h => ?_, fun h => ?_, fun h => ?_, fun h => ?_, fun h => ?_, fun h => ?_⟩
    · rw [getI_absent kv "ag" h] at hag; injection hag with hag; exact hag.symm
    · rw [getF_absent kv "al" h] at hal; injection hal with hal; exact hal.symm
    · rw [getF_absent kv "hr" h] at hhr; injection hhr with hhr; exact hhr.symm
    · rw [getF_absent kv "ds" h] at hds; injection hds with hds; exact hds.symm
    · rw [getF_absent kv "sl" h] at hsl; injection hsl with hsl; exact hsl.symm
    · rw [getF_absent kv "wr20" h] at hwr; injection hwr with hwr; exact hwr.symm
  · intro hdis
    cases hok : store_trade raw kv src with
    | error e => exact ⟨e, rfl⟩
    | ok r =>
    exfalso
    obtain ⟨hag, hal, hhr, hds, hsl, hwr, -, -, -⟩ :=
      store_trade_ok_fields raw kv src r hok
    rcases hdis with ⟨s, hs, hne, hp⟩ | ⟨s, hs, hne, hp⟩ | ⟨s, hs, hne, hp⟩
      | ⟨s, hs, hne, hp⟩ | ⟨s, hs, hne, hp⟩ | ⟨s, hs, hne, hp⟩
    · rw [getI_raises kv "ag" s hs hne hp] at hag; exact Except.noConfusion hag
    · rw [getF_raises kv "al" s hs hne hp] at hal; exact Except.noConfusion hal
    · rw [getF_raises kv "hr" s hs hne hp] at hhr; exact Except.noConfusion hhr
    · rw [getF_raises kv "ds" s hs hne hp] at hds; exact Except.noConfusion hds
    · rw [getF_raises kv "sl" s hs hne hp] at hsl; exact Except.noConfusion hsl
    · rw [getF_raises kv "wr20" s hs hne hp] at hwr; exact Except.noConfusion hwr
  · intro m hok
    obtain ⟨hp, hv, hatr, hbbw, hal, hhr, hadx, hbb, hliq, hspr, -, -⟩ :=
      store_market_ok_fields raw kv src m hok
    refine ⟨fun h => ?_, fun h => ?_, fun h => ?_, fun h h2 => ?_, fun h => ?_,
      fun h => ?_, fun h => ?_, fun h => ?_, fun h => ?_, fun h => ?_⟩
    · rw [getF_absent kv "p" h] at hp; injection hp with hp; exact hp.symm
    · rw [getF_absent kv "v" h] at hv; injection hv with hv; exact hv.symm
    · rw [getF_absent kv "atr" h] at hatr; injection hatr with hatr; exact hatr.symm
    · rw [getBbw_absent kv h h2] at hbbw; injection hbbw with hbbw; exact hbbw.symm
    · rw [getF_absent kv "al" h] at hal; injection hal with hal; exact hal.symm
    · rw [getF_absent kv "hr" h] at hhr; injection hhr with hhr; exact hhr.symm
    · rw [getF_absent kv "adx" h] at hadx; injection hadx with hadx; exact hadx.symm
    · rw [getF_absent kv "bb" h] at hbb; injection hbb with hbb; exact hbb.symm
    · rw [getF_absent kv "liq" h] at hliq; injection hliq with hliq; exact hliq.symm
    · rw [getF_absent kv "spr" h] at hspr; injection hspr with hspr; exact hspr.symm
  · intro hdis
    cases hok : store_market raw kv src with
    | error e => exact ⟨e, rfl⟩
    | ok m =>
    exfalso
    obtain ⟨hp, hv, hatr, hbbw, hal, hhr, hadx, hbb, hliq, hspr, -, -⟩ :=
      store_market_ok_fields raw kv src m hok
    rcases hdis with ⟨s, hs, hne, hpf⟩ | ⟨s, hs, hne, hpf⟩ | ⟨s, hs, hne, hpf⟩
      | ⟨s, hs, hne, hpf⟩ | ⟨habs, s, hs, hne, hpf⟩ | ⟨s, hs, hne, hpf⟩
      | ⟨s, hs, hne, hpf⟩ | ⟨s, hs, hne, hpf⟩ | ⟨s, hs, hne, hpf⟩
      | ⟨s, hs, hne, hpf⟩ | ⟨s, hs, hne, hpf⟩
    · rw [getF_raises kv "p" s hs hne hpf] at hp; exact Except.noConfusion hp
    · rw [getF_raises kv "v" s hs hne hpf] at hv; exact Except.noConfusion hv
    · rw [getF_raises kv "atr" s hs hne hpf] at hatr; exact Except.noConfusion hatr
    · rw [getBbw_raises kv s hs hne hpf] at hbbw; exact Except.noConfusion hbbw
    · rw [getF_raises kv "bb" s hs hne hpf] at hbb; exact Except.noConfusion hbb
    · rw [getF_raises kv "al" s hs hne hpf] at hal; exact Except.noConfusion hal
    · rw [getF_raises kv "hr" s hs hne hpf] at hhr; exact Except.noConfusion hhr
    · rw [getF_raises kv "adx" s hs hne hpf] at hadx; exact Except.noConfusion hadx
    · rw [getF_raises kv "bb" s hs hne hpf] at hbb; exact Except.noConfusion hbb
    · rw [getF_raises kv "liq" s hs hne hpf] at hliq; exact Except.noConfusion hliq
    · rw [getF_raises kv "spr" s hs hne hpf] at hspr; exact Except.noConfusion hspr

/-- C1 witness: a non-empty unparsable float field (al), a non-empty
unparsable int field (ag) and a non-empty unparsable aliased field (bb)
each abort their normalizer with an error, while an empty al field
normalizes to an absent value in the produced row. -/
theorem C1_witness :
    (∃ e, store_trade "x" [("al", "notanumber")] "F34" = .error e)
    ∧ (∃ e, store_trade "x" [("ag", "bad")] "F34" = .error e)
    ∧ (∃ e, store_market "x" [("bb", "zz")] "HEIMDALL" = .error e)
    ∧ (⟨"na", "na", "x", none, none, none, none, none, none,
        none, none, none, "F34", "x"⟩ : TradeRow).al = none :=
  ⟨(C1_amended_numeric_parse "x" [("al", "notanumber")] "F34").2.1
      (Or.inr (Or.inl ⟨"notanumber", rfl, by decide, by decide⟩)),
   (C1_amended_numeric_parse "x" [("ag", "bad")] "F34").2.1
      (Or.inl ⟨"bad", rfl, by decide, by decide⟩),
   (C1_amended_numeric_parse "x" [("bb", "zz")] "HEIMDALL").2.2.2
      (Or.inr (Or.inr (Or.inr (Or.inr (Or.inr (Or.inr (Or.inr (Or.inr
        (Or.inl ⟨"zz", rfl, by decide, by decide⟩))))))))),
   ((C1_amended_numeric_parse "x" [("al", "")] "F34").1
      (⟨"na", "na", "x", none, none, none, none, none, none,
        none, none, none, "F34", "x"⟩ : TradeRow) rfl).2.1 (Or.inr rfl)⟩

/-- C7 counterexample: a present-but-empty sym value is stored as the
empty string, not as the sentinel na, because the source only defaults
on an absent key (kv.get with default); the tf field by contrast goes
through norm_tf and does become na. -/
theorem C7_counterexample :
    classify_and_store "EL|sym="
      = .ok (.trade ⟨"", "na", "EL", none, none, none, none, none, none,
             none, none, none, "F34", "EL|sym="⟩)
    ∧ ("" : String) ≠ "na" := ⟨rfl, by decide⟩

/-- C7 amended: in both normalizers the symbol defaults to na only when
the sym key is absent; a present value (even the empty string) is
stored verbatim; the timeframe normalizes to na when the tf key is
absent or its value empty, and otherwise is the stripped value. -/
theorem C7_amended_sym_tf_defaults (raw : String) (kv : Dict) (src : String) :
    (∀ r, store_trade raw kv src = .ok r →
        (pyGet kv "sym" = none → r.sym = "na")
        ∧ (∀ s, pyGet kv "sym" = some s → r.sym = s)
        ∧ ((pyGet kv "tf" = none ∨ pyGet kv "tf" = some "") → r.tf = "na")
        ∧ (∀ s, pyGet kv "tf" = some s → s ≠ "" → r.tf = pyStripS s))
    ∧ (∀ m, store_market raw kv src = .ok m →
        (pyGet kv "sym" = none → m.sym = "na")
        ∧ (∀ s, pyGet kv "sym" = some s → m.sym = s)
        ∧ ((pyGet kv "tf" = none ∨ pyGet kv "tf" = some "") → m.tf = "na")
        ∧ (∀ s, pyGet kv "tf" = some s → s ≠ "" → m.tf = pyStripS s)) := by
  constructor
  · intro r hok
    obtain ⟨-, -, -, -, -, -, hsym, htf, -⟩ := store_trade_ok_fields raw kv src r hok
    refine ⟨fun hs => ?_, fun s hs => ?_, fun ht => ?_, fun s ht hne => ?_⟩
    · rw [hsym, hs]; rfl
    · rw [hsym, hs]; rfl
    · rcases ht with ht | ht <;> rw [htf, ht] <;> rfl
    · rw [htf, ht]; simp [norm_tf, hne]
  · intro m hok
    obtain ⟨-, -, -, -, -, -, -, -, -, -, hsym, htf⟩ :=
      store_market_ok_fields raw kv src m hok
    refine ⟨fun hs => ?_, fun s hs => ?_, fun ht => ?_, fun s ht hne => ?_⟩
    · rw [hsym, hs]; rfl
    · rw [hsym, hs]; rfl
    · rcases ht with ht | ht <;> rw [htf, ht] <;> rfl
    · rw [htf, ht]; simp [norm_tf, hne]

/-- C7 witness: on a field map with an absent sym key and an empty tf
value, the trade normalizer produces the concrete row whose symbol and
timeframe are both na. -/
theorem C7_witness :
    store_trade "x" [("tf", "")] "F34"
      = .ok (⟨"na", "na", "x", none, none, none, none, none, none,
             none, none, none, "F34", "x"⟩ : TradeRow)
    ∧ (⟨"na", "na", "x", none, none, none, none, none, none,
        none, none, none, "F34", "x"⟩ : TradeRow).sym = "na"
    ∧ (⟨"na", "na", "x", none, none, none, none, none, none,
        none, none, none, "F34", "x"⟩ : TradeRow).tf = "na" := by
  have h := (C7_amended_sym_tf_defaults "x" [("tf", "")] "F34").1
    (⟨"na", "na", "x", none, none, none, none, none, none,
      none, none, none, "F34", "x"⟩ : TradeRow) rfl
  exact ⟨rfl, h.1 rfl, h.2.2.1 (Or.inr rfl)⟩

/-- C6 counterexample: for the lowercased envelope message telem|a=1
(prefix TELEM per the tokenizer, no sig and no verb key) the stored
verb is the verbatim first segment telem, not the message prefix TELEM:
the fallback uses raw.split on the pipe, not the normalized prefix. -/
theorem C6_counterexample :
    classify_and_store "telem|a=1"
      = .ok (.trade ⟨"na", "na", "telem", none, none, none, none, none, none,
             none, none, none, "F34", "telem|a=1"⟩)
    ∧ (kv_parse "telem|a=1").1 = "TELEM"
    ∧ pyGet (kv_parse "telem|a=1").2 "sig" = none
    ∧ pyGet (kv_parse "telem|a=1").2 "verb" = none
    ∧ ("telem" : String) ≠ "TELEM" := ⟨rfl, rfl, rfl, rfl, by decide⟩

/-- C6 amended: for every message normalized as a trade, the stored
verb is sig when present and non-empty, else verb when present and
non-empty, else the uppercased prefix when the prefix is an action code
and no verb key was sent (the classifier injects it), else the verbatim
first pipe-segment of the raw text (verbSpec). -/
theorem C6_amended_verb_resolution (raw : String) (r : TradeRow)
    (h : classify_and_store raw = .ok (.trade r)) :
    r.verb = verbSpec raw := by
  unfold classify_and_store at h
  cases hc : classify (pfOf raw) (kv_parse raw).2 with
  | error e => rw [hc] at h; exact absurd h (by simp)
  | ok kind =>
    cases kind with
    | market =>
      simp only [hc] at h
      cases hm : store_market raw (kv_parse raw).2 "HEIMDALL" <;>
        rw [hm] at h <;> simp [Except.map] at h
    | trade =>
      simp only [hc] at h
      by_cases hact : pfOf raw ∈ TRADE_ACTIONS
      · rw [if_pos hact] at h
        cases hst : store_trade raw (setdefault (kv_parse raw).2 "verb" (pfOf raw)) "F34" with
        | error e => rw [hst] at h; exact absurd h (by simp [Except.map])
        | ok t =>
          rw [hst] at h
          have ht : t = r := by simpa [Except.map] using h
          subst ht
          obtain ⟨-, -, -, -, -, -, -, -, hv⟩ := store_trade_ok_fields raw
            (setdefault (kv_parse raw).2 "verb" (pfOf raw)) "F34" t hst
          rw [hv]
          have hne : pfOf raw ≠ "" := by
            have hall : ∀ x ∈ TRADE_ACTIONS, x ≠ "" := by decide
            exact hall _ hact
          cases hkv : hasKey (kv_parse raw).2 "verb" with
          | true => simp [setdefault, hkv, verbSpec]
          | false =>
            have hnone : pyGet (kv_parse raw).2 "verb" = none := by
              cases hx : pyGet (kv_parse raw).2 "verb" with
              | none => rfl
              | some v => rw [hasKey, hx] at hkv; exact absurd hkv (by simp)
            simp only [setdefault, hkv, Bool.false_eq_true, if_false, verbSpec]
            rw [pyGet_pyDictInsert, pyGet_pyDictInsert]
            simp [hnone, hact, hkv, pyOrS, hne]
      · rw [if_neg hact] at h
        cases hst : store_trade raw (kv_parse raw).2 "F34" with
        | error e => rw [hst] at h; exact absurd h (by simp [Except.map])
        | ok t =>
          rw [hst] at h
          have ht : t = r := by simpa [Except.map] using h
          subst ht
          obtain ⟨-, -, -, -, -, -, -, -, hv⟩ :=
            store_trade_ok_fields raw (kv_parse raw).2 "F34" t hst
          rw [hv]
          simp [verbSpec, hact]

/-- C6 witness: the particular instance of the claim, prefix EL with no
sig key resolves the verb to EL. -/
theorem C6_witness :
    (⟨"BTCUSDT", "na", "EL", none, none, none, none, none, none,
      none, none, none, "F34", "EL|sym=BTCUSDT"⟩ : TradeRow).verb
      = verbSpec "EL|sym=BTCUSDT"
    ∧ verbSpec "EL|sym=BTCUSDT" = "EL" :=
  ⟨C6_amended_verb_resolution "EL|sym=BTCUSDT"
    (⟨"BTCUSDT", "na", "EL", none, none, none, none, none, none,
      none, none, none, "F34", "EL|sym=BTCUSDT"⟩ : TradeRow) rfl, rfl⟩

/-- A digest already cached: seen answers true and leaves the cache
unchanged. -/
theorem seen_mem (raw : String) (recent : List String)
    (h : sha1hex raw ∈ recent) : seen raw recent = (true, recent) := by
  simp only [seen]
  rw [if_pos h]

/-- A digest not cached, with room below the bound: seen answers false
and pushes the digest. -/
theorem seen_not_mem (raw : String) (recent : List String)
    (hmem : sha1hex raw ∉ recent) (hlen : recent.length ≤ 1999) :
    seen raw recent = (false, sha1hex raw :: recent) := by
  simp only [seen]
  rw [if_neg hmem]
  have hgt : ¬ ((sha1hex raw :: recent).length > 2000) := by
    simp only [List.length_cons]
    omega
  rw [if_neg hgt]

/-- C5: starting from a dedup cache not containing the text (and with
room in the window, so the insertion does not trigger the batch
eviction), the first call to seen answers false and records the digest,
a second call on the byte-identical text answers true, and at the
ingest boundary the duplicate is acknowledged with a success (dup)
response, the cache is left unchanged, and nothing is classified or
stored. -/
theorem C5_dedup_first_false_then_true (raw : String) (recent : List String)
    (hmem : sha1hex raw ∉ recent) (hlen : recent.length ≤ 1999)
    (hstr : pyStripS raw = raw) (hne : raw ≠ "") :
    (seen raw recent).1 = false
    ∧ sha1hex raw ∈ (seen raw recent).2
    ∧ (seen raw ((seen raw recent).2)).1 = true
    ∧ ingest raw ((seen raw recent).2)
        = (.dup raw.length, (seen raw recent).2, none)
    ∧ respSuccess (.dup raw.length) = true := by
  have E := seen_not_mem raw recent hmem hlen
  have E2 : seen raw (sha1hex raw :: recent) = (true, sha1hex raw :: recent) :=
    seen_mem raw _ (List.mem_cons_self _ _)
  refine ⟨by rw [E], by rw [E]; exact List.mem_cons_self _ _, by rw [E, E2], ?_, rfl⟩
  rw [E]
  simp [ingest, hstr, hne, E2]

/-- C5 witness at a concrete message and the empty cache. -/
theorem C5_witness :
    (seen "EL|sym=X" []).1 = false
    ∧ sha1hex "EL|sym=X" ∈ (seen "EL|sym=X" []).2
    ∧ (seen "EL|sym=X" ((seen "EL|sym=X" []).2)).1 = true
    ∧ ingest "EL|sym=X" ((seen "EL|sym=X" []).2)
        = (.dup ("EL|sym=X" : String).length, (seen "EL|sym=X" []).2, none)
    ∧ respSuccess (.dup ("EL|sym=X" : String).length) = true :=
  C5_dedup_first_false_then_true "EL|sym=X" [] (List.not_mem_nil _)
    (by decide) (by decide) (by decide)

/-- C9: the dedup cache is bounded: at most 2000 entries before a call
to seen implies at most 2000 entries after it; and when an insertion
pushes the size to 2001, a batch of 500 entries is evicted, leaving
1501 (the model fixes one eviction order; the source pops arbitrary set
elements, and the size count is order-independent). -/
theorem C9_dedup_bounded (msg : String) (recent : List String)
    (hlen : recent.length ≤ 2000) :
    ((seen msg recent).2).length ≤ 2000
    ∧ (sha1hex msg ∉ recent → recent.length = 2000 →
        ((seen msg recent).2).length = 1501) := by
  by_cases hm : sha1hex msg ∈ recent
  · rw [seen_mem _ _ hm]
    exact ⟨hlen, fun hn _ => absurd hm hn⟩
  · simp only [seen]
    rw [if_neg hm]
    by_cases hgt : ((sha1hex msg :: recent).length > 2000)
    · rw [if_pos hgt]
      simp only [List.length_drop, List.length_cons] at hgt ⊢
      exact ⟨by omega, fun _ h2000 => by omega⟩
    · rw [if_neg hgt]
      simp only [List.length_cons] at hgt ⊢
      exact ⟨by omega, fun _ h2000 => by omega⟩

/-- C9 witness at a concrete message and the empty cache. -/
theorem C9_witness :
    ((seen "a" []).2).length ≤ 2000
    ∧ (sha1hex "a" ∉ ([] : List String) → ([] : List String).length = 2000 →
        ((seen "a" []).2).length = 1501) :=
  C9_dedup_bounded "a" [] (by decide)

/-- C10: the dedup check runs before classification, so an invalid
payload still enters the dedup cache although the request fails: the
first ingest of an unparsable payload answers the 422 parse error and
inserts the digest, and a second byte-identical submission is
acknowledged as a duplicate success with nothing stored. -/
theorem C10_error_still_caches (raw : String) (recent : List String) (e : String)
    (hstr : pyStripS raw = raw) (hne : raw ≠ "") (hmem : sha1hex raw ∉ recent)
    (hlen : recent.length ≤ 1999) (hcl : classify_and_store raw = .error e) :
    ingest raw recent = (.parseErr ("Parse error: " ++ e), sha1hex raw :: recent, none)
    ∧ ingest raw (sha1hex raw :: recent)
        = (.dup raw.length, sha1hex raw :: recent, none) := by
  have E := seen_not_mem raw recent hmem hlen
  have E2 : seen raw (sha1hex raw :: recent) = (true, sha1hex raw :: recent) :=
    seen_mem raw _ (List.mem_cons_self _ _)
  constructor
  · simp [ingest, hstr, hne, E, hcl]
  · simp [ingest, hstr, hne, E2]

/-- C10 witness: the unrecognized payload FOO|x=1 submitted twice from
the empty cache. -/
theorem C10_witness :
    ingest "FOO|x=1" []
      = (.parseErr ("Parse error: " ++ "Unrecognized payload"),
         sha1hex "FOO|x=1" :: [], none)
    ∧ ingest "FOO|x=1" (sha1hex "FOO|x=1" :: [])
      = (.dup ("FOO|x=1" : String).length, sha1hex "FOO|x=1" :: [], none) :=
  C10_error_still_caches "FOO|x=1" [] "Unrecognized payload"
    (by decide) (by decide) (List.not_mem_nil _) (by decide) rfl
